import Mathlib

/-!
Shallow embedding of the `backoff` Go package (retry driver and signal
error types) and verification of its specification claims.

Modelled source units:
* `error.go` / `part_000`: `PermanentError`, `Permanent`, `RetryAfterError`,
  `RetryAfter`.
* `part_001` (retry driver): `DefaultMaxElapsedTime`, `Operation`, `Notify`,
  `retryOptions`, the `With*` option setters, and `Retry`.

Durations (`time.Duration`) are embedded as `Int` nanoseconds.  Wall-clock
observations (`time.Since(startedAt)`), the cancellation context
(`ctx.Err()` / `ctx.Done()`), and the outcome of the timer-vs-cancellation
`select` are external inputs to the driver; they are supplied by a
`RetryEnv` giving, for each attempt number, the values the driver would
observe at the corresponding program points.  The operation closure is
embedded as a function of the attempt number (1-based).  The unbounded
`for` loop is embedded with a fuel parameter: `none` means the loop was
still running when the fuel ran out.
-/

namespace Backoff

/-- Go `error` values as the driver can observe them: a plain error
(no `Unwrap` method), an unwrap-transparent wrapper such as
`fmt.Errorf("...%w...")`, a `*PermanentError` (from `error.go`), or a
`*RetryAfterError` (from `part_000`, duration in nanoseconds).  A Go
`nil` error is `Option.none` at use sites. -/
inductive GoError : Type where
  | plain (msg : String)
  | wrapped (msg : String) (err : GoError)
  | permanentE (err : GoError)
  | retryAfterE (duration : Int)
  deriving DecidableEq, Repr

/-- Go `time.Second` in nanoseconds. -/
def Second : Int := 1000000000

/-- Go `time.Minute` in nanoseconds. -/
def Minute : Int := 60 * Second

/-- Embeds the constant `DefaultMaxElapsedTime = 15 * time.Minute`. -/
def DefaultMaxElapsedTime : Int := 15 * Minute

/-- Embeds `errors.As(err, &permanent)` for target type `*PermanentError`:
walk the `Unwrap` chain, returning the wrapped error of the first
`*PermanentError` found.  `plain` and `retryAfterE` have no `Unwrap`
method, so the chain stops there. -/
def asPermanent : GoError → Option GoError
  | .plain _ => none
  | .wrapped _ e => asPermanent e
  | .permanentE e => some e
  | .retryAfterE _ => none

/-- Embeds the `Unwrap() error` method where one exists (`*PermanentError`
and transparent wrappers); errors without an `Unwrap` method yield `none`. -/
def unwrapOnce : GoError → Option GoError
  | .plain _ => none
  | .wrapped _ e => some e
  | .permanentE e => some e
  | .retryAfterE _ => none

/-- Embeds the `Error() string` methods: `(*PermanentError).Error` returns
`e.Err.Error()`; a wrapper carries its own formatted message.
`(*RetryAfterError).Error` formats `"retry after %s"` with Go duration
formatting; no claim depends on that rendering, so the duration is shown
via `toString` here. -/
def errorString : GoError → String
  | .plain msg => msg
  | .wrapped msg _ => msg
  | .permanentE e => errorString e
  | .retryAfterE d => "retry after " ++ toString d

/-- Embeds `Permanent` from `error.go`: `nil` maps to `nil`, otherwise the
error is wrapped in a `*PermanentError`. -/
def Permanent : Option GoError → Option GoError
  | none => none
  | some e => some (.permanentE e)

/-- Embeds `RetryAfter` from `part_000`:
`&RetryAfterError{Duration: time.Duration(seconds) * time.Second}`. -/
def RetryAfter (seconds : Int) : GoError :=
  .retryAfterE (seconds * Second)

/-- The `BackOff` capability as the driver uses it, embedded as a pure
state machine over a state type `S`: `Reset()` and `NextBackOff()` (which
returns the next delay and the successor state). -/
structure BackOff (S : Type) where
  reset : S → S
  nextBackOff : S → Int × S

/-- Modelled from the spec: `Stop` is the distinguished sentinel duration
(conventionally `-1`) returned by `NextBackOff` to mean "no more retries";
the file declaring it is not under `src/`. -/
def Stop : Int := -1

/-- Embeds the `retryOptions` struct from `part_001`.  The `Timer` field
is an external collaborator (its behaviour shows up in `RetryEnv`); the
`Notify` field is represented by its nil-ness, and the calls the driver
makes to it are recorded in the run's outcome. -/
structure retryOptions (S : Type) where
  BackOff : BackOff S
  hasNotify : Bool
  MaxElapsedTime : Int
  MaxTries : Nat

/-- Embeds `RetryOption = func(*retryOptions)`. -/
def RetryOption (S : Type) : Type :=
  retryOptions S → retryOptions S

/-- Embeds `WithBackOff`. -/
def WithBackOff (b : BackOff S) : RetryOption S :=
  fun args => { args with BackOff := b }

/-- Embeds `WithNotify` (a non-nil callback is installed). -/
def WithNotify : RetryOption S :=
  fun args => { args with hasNotify := true }

/-- Embeds `WithMaxElapsedTime`. -/
def WithMaxElapsedTime (d : Int) : RetryOption S :=
  fun args => { args with MaxElapsedTime := d }

/-- Embeds `WithMaxTries`. -/
def WithMaxTries (n : Nat) : RetryOption S :=
  fun args => { args with MaxTries := n }

/-- External observations the driver makes during a run, per attempt
number `i` (1-based): `elapsed i` is `time.Since(startedAt)` at attempt
`i`'s elapsed-time check; `ctxErr i` is `ctx.Err()` at attempt `i`'s
pre-wait cancellation check; `waitCancel i` is `some c` when `ctx.Done()`
wins attempt `i`'s `select` against the timer with `ctx.Err() = c`, and
`none` when the timer fires first. -/
structure RetryEnv where
  elapsed : Nat → Int
  ctxErr : Nat → Option GoError
  waitCancel : Nat → Option GoError

/-- Which `return` statement of `Retry` ended the run. -/
inductive StopReason : Type where
  | success
  | maxTries
  | maxElapsed
  | permanent
  | backoffStop
  | ctxPreWait
  | ctxDuringWait
  deriving DecidableEq, Repr

/-- Result of a terminated `Retry` run: the returned `(value, error)`
pair, the number of operation invocations, the trace of `Notify` calls
(argument pairs, in order), the trace of durations passed to
`Timer.Start`, the number of `BackOff.Reset()` calls made by the driver,
and which return path was taken. -/
structure RetryOutcome (T : Type) where
  value : T
  error : Option GoError
  invocations : Nat
  notifies : List (GoError × Int)
  waits : List Int
  resets : Nat
  reason : StopReason
  deriving Repr, DecidableEq

/-- Embeds the `for numTries := uint(1); ; numTries++` loop of `Retry`
from `part_001`, started at attempt number `numTries` with backoff state
`s`.  Each iteration: invoke the operation; return on success; then the
`MaxTries` check (`args.MaxTries > 0 && numTries >= args.MaxTries`); then
the elapsed-time check (`time.Since(startedAt) > args.MaxElapsedTime`);
then the `errors.As(err, &permanent)` check; then `NextBackOff` and the
`Stop` check; then the `ctx.Err()` check; then the optional `Notify`
call; then `Timer.Start(next)` and the `select` between the timer and
`ctx.Done()`.  `none` means the fuel ran out with the loop still
running. -/
def retryLoop (args : retryOptions S) (env : RetryEnv)
    (op : Nat → T × Option GoError) :
    Nat → S → Nat → Option (RetryOutcome T)
  | 0, _, _ => none
  | fuel + 1, s, numTries =>
    match (op numTries).2 with
    | none => some ⟨(op numTries).1, none, numTries, [], [], 0, .success⟩
    | some err =>
      if 0 < args.MaxTries ∧ args.MaxTries ≤ numTries then
        some ⟨(op numTries).1, some err, numTries, [], [], 0, .maxTries⟩
      else if args.MaxElapsedTime < env.elapsed numTries then
        some ⟨(op numTries).1, some err, numTries, [], [], 0, .maxElapsed⟩
      else if (asPermanent err).isSome then
        some ⟨(op numTries).1, some err, numTries, [], [], 0, .permanent⟩
      else if (args.BackOff.nextBackOff s).1 = Stop then
        some ⟨(op numTries).1, some err, numTries, [], [], 0, .backoffStop⟩
      else
        match env.ctxErr numTries with
        | some cerr =>
          some ⟨(op numTries).1, some cerr, numTries, [], [], 0, .ctxPreWait⟩
        | none =>
          match env.waitCancel numTries with
          | some cerr =>
            some ⟨(op numTries).1, some cerr, numTries,
              if args.hasNotify then
                [(err, (args.BackOff.nextBackOff s).1)]
              else [],
              [(args.BackOff.nextBackOff s).1], 0, .ctxDuringWait⟩
          | none =>
            match retryLoop args env op fuel
                (args.BackOff.nextBackOff s).2 (numTries + 1) with
            | none => none
            | some out =>
              some { out with
                notifies :=
                  (if args.hasNotify then
                    [(err, (args.BackOff.nextBackOff s).1)]
                  else []) ++ out.notifies,
                waits := (args.BackOff.nextBackOff s).1 :: out.waits }

/-- Embeds the body of `Retry` after option processing: the single
`args.BackOff.Reset()` call, then the loop from attempt 1. -/
def retryWith (args : retryOptions S) (env : RetryEnv)
    (op : Nat → T × Option GoError) (sInit : S) (fuel : Nat) :
    Option (RetryOutcome T) :=
  match retryLoop args env op fuel (args.BackOff.reset sInit) 1 with
  | none => none
  | some out => some { out with resets := out.resets + 1 }

/-- Embeds the option-processing loop of `Retry`: option setters are
applied in order to the defaults (`NewExponentialBackOff()` stands behind
`defaultBackOff`; `MaxElapsedTime: DefaultMaxElapsedTime`; the zero
values `MaxTries = 0` and nil `Notify`). -/
def applyOptions (defaultBackOff : BackOff S)
    (opts : List (RetryOption S)) : retryOptions S :=
  opts.foldl (fun args opt => opt args)
    ⟨defaultBackOff, false, DefaultMaxElapsedTime, 0⟩

/-- Embeds `Retry` from `part_001`: build the options from the defaults,
reset the backoff generator once, then run the loop from attempt 1. -/
def Retry (defaultBackOff : BackOff S) (opts : List (RetryOption S))
    (env : RetryEnv) (op : Nat → T × Option GoError) (sInit : S)
    (fuel : Nat) : Option (RetryOutcome T) :=
  retryWith (applyOptions defaultBackOff opts) env op sInit fuel

/-- Delay produced by the `k`-th `NextBackOff` call (0-based) when the
generator evolves from state `s` by `NextBackOff` alone, with no
intervening `Reset`. -/
def delaySeq (b : BackOff S) : S → Nat → Int
  | s, 0 => (b.nextBackOff s).1
  | s, k + 1 => delaySeq b (b.nextBackOff s).2 k

/-- The error produced by attempt `j` of the operation (meaningful on
failing attempts). -/
def errAt (op : Nat → T × Option GoError) (j : Nat) : GoError :=
  ((op j).2).getD (.plain "")

/-- Test generator: state counts `NextBackOff` calls since the last
reset, and the delays are 100, 101, 102, ... nanoseconds, so a reset is
observable in the delay sequence. -/
def bCount : BackOff Nat :=
  ⟨fun _ => 0, fun s => (100 + s, s + 1)⟩

/-- Test environment: no elapsed time, no cancellation. -/
def envQuiet : RetryEnv :=
  ⟨fun _ => 0, fun _ => none, fun _ => none⟩

/-- Test environment: one nanosecond has elapsed at every check, no
cancellation. -/
def envElapsedOne : RetryEnv :=
  ⟨fun _ => 1, fun _ => none, fun _ => none⟩

/-- Test operation: returns `RetryAfter(1)` on the first attempt, then
succeeds. -/
def opRetryAfterOnce : Nat → String × Option GoError :=
  fun i => if i = 1 then ("", some (RetryAfter 1)) else ("ok", none)

/-- Test operation: always returns `Permanent(errors.New("x"))`. -/
def opAlwaysPermanentX : Nat → Unit × Option GoError :=
  fun _ => ((), Permanent (some (.plain "x")))

/-- Test operation: attempt `i` fails with the plain error `"e<i>"`. -/
def opAlwaysFail : Nat → Unit × Option GoError :=
  fun i => ((), some (.plain ("e" ++ toString i)))

/-- Test operation: fails twice with the plain error `"t"`, then
succeeds with `"ok"`. -/
def opFailTwice : Nat → String × Option GoError :=
  fun i => if i ≤ 2 then ("", some (.plain "t")) else ("ok", none)

/-- Test environment: context already cancelled (with error `"ctx"`) at
every pre-wait check. -/
def envCancelPre : RetryEnv :=
  ⟨fun _ => 0, fun _ => some (.plain "ctx"), fun _ => none⟩

/-- Test environment: cancellation (with error `"ctx"`) wins every
timer-vs-cancellation race, but is not yet visible at the pre-wait
check. -/
def envCancelWait : RetryEnv :=
  ⟨fun _ => 0, fun _ => none, fun _ => some (.plain "ctx")⟩

/-- Test operation: succeeds immediately with `"v"`. -/
def opImmediateOk : Nat → String × Option GoError :=
  fun _ => ("v", none)

/-- Unfolding lemma: the 0th delay from state `s` is the head of the
`NextBackOff` call on `s`. -/
theorem delaySeq_zero {S : Type} (b : BackOff S) (s : S) :
    delaySeq b s 0 = (b.nextBackOff s).1 := rfl

/-- Unfolding lemma: later delays come from the successor state. -/
theorem delaySeq_succ {S : Type} (b : BackOff S) (s : S) (k : Nat) :
    delaySeq b s (k + 1) = delaySeq b (b.nextBackOff s).2 k := rfl

/-- On a failing attempt, `errAt` is that attempt's error. -/
theorem errAt_eq {T : Type} (op : Nat → T × Option GoError) (j : Nat)
    (e : GoError) (h : (op j).2 = some e) : errAt op j = e := by
  simp [errAt, h]

/-- Trace invariant of the retry loop started at attempt `i` in backoff
state `s`: the attempt counter only grows, the loop itself never resets
the generator, the recorded `Timer.Start` durations are exactly the pure
`NextBackOff` iteration from `s`, the `Notify` trace pairs each of those
durations with the corresponding attempt's error exactly when a callback
is configured, and there is one wait per non-final attempt (plus the
interrupted one when cancellation strikes during a wait). -/
theorem retryLoop_trace {S T : Type} (args : retryOptions S) (env : RetryEnv)
    (op : Nat → T × Option GoError) :
    ∀ (fuel : Nat) (s : S) (i : Nat) (out : RetryOutcome T),
      retryLoop args env op fuel s i = some out →
      i ≤ out.invocations ∧ out.resets = 0 ∧
      ∃ n,
        out.waits = (List.range n).map (fun k => delaySeq args.BackOff s k) ∧
        out.notifies = (if args.hasNotify then
            (List.range n).map
              (fun k => (errAt op (i + k), delaySeq args.BackOff s k))
          else []) ∧
        (∀ k, k < n → (op (i + k)).2 = some (errAt op (i + k))) ∧
        n + i = (if out.reason = StopReason.ctxDuringWait
                 then out.invocations + 1 else out.invocations) := by
  intro fuel
  induction fuel with
  | zero =>
    intro s i out h
    simp [retryLoop] at h
  | succ fuel ih =>
    intro s i out h
    rw [retryLoop] at h
    cases hop : (op i).2 with
    | none =>
      simp only [hop] at h
      cases h
      exact ⟨le_refl i, rfl, 0, by simp, by simp, by simp, by simp⟩
    | some err =>
      simp only [hop] at h
      by_cases hmt : 0 < args.MaxTries ∧ args.MaxTries ≤ i
      · rw [if_pos hmt] at h
        cases h
        exact ⟨le_refl i, rfl, 0, by simp, by simp, by simp, by simp⟩
      · rw [if_neg hmt] at h
        by_cases hme : args.MaxElapsedTime < env.elapsed i
        · rw [if_pos hme] at h
          cases h
          exact ⟨le_refl i, rfl, 0, by simp, by simp, by simp, by simp⟩
        · rw [if_neg hme] at h
          by_cases hperm : (asPermanent err).isSome = true
          · rw [if_pos hperm] at h
            cases h
            exact ⟨le_refl i, rfl, 0, by simp, by simp, by simp, by simp⟩
          · rw [if_neg hperm] at h
            by_cases hstop : (args.BackOff.nextBackOff s).1 = Stop
            · rw [if_pos hstop] at h
              cases h
              exact ⟨le_refl i, rfl, 0, by simp, by simp, by simp, by simp⟩
            · rw [if_neg hstop] at h
              cases hctx : env.ctxErr i with
              | some cerr =>
                simp only [hctx] at h
                cases h
                exact ⟨le_refl i, rfl, 0, by simp, by simp, by simp, by simp⟩
              | none =>
                simp only [hctx] at h
                cases hwc : env.waitCancel i with
                | some cerr =>
                  simp only [hwc] at h
                  cases h
                  have hr1 : List.range 1 = [0] := rfl
                  refine ⟨le_refl i, rfl, 1, ?_, ?_, ?_, ?_⟩
                  · rfl
                  · by_cases hn : args.hasNotify
                    · rw [if_pos hn, if_pos hn]
                      simp only [hr1, List.map_singleton, Nat.add_zero,
                        delaySeq_zero, errAt_eq op i err hop]
                    · rw [if_neg hn, if_neg hn]
                  · intro k hk
                    have hk0 : k = 0 := by omega
                    subst hk0
                    rw [Nat.add_zero, errAt_eq op i err hop, hop]
                  · simp [Nat.add_comm]
                | none =>
                  simp only [hwc] at h
                  cases hrec : retryLoop args env op fuel
                      (args.BackOff.nextBackOff s).2 (i + 1) with
                  | none =>
                    simp only [hrec] at h
                    exact Option.noConfusion h
                  | some out' =>
                    simp only [hrec] at h
                    cases h
                    obtain ⟨ih1, ih2, n, ihw, ihn, ihe, ihlen⟩ :=
                      ih (args.BackOff.nextBackOff s).2 (i + 1) out' hrec
                    have hshift : ∀ k : Nat, i + (k + 1) = (i + 1) + k := by
                      omega
                    refine ⟨?_, ih2, n + 1, ?_, ?_, ?_, ?_⟩
                    · show i ≤ out'.invocations
                      omega
                    · show (args.BackOff.nextBackOff s).1 :: out'.waits = _
                      rw [ihw, List.range_succ_eq_map, List.map_cons,
                        List.map_map]
                      congr 1
                    · show (if args.hasNotify then
                          [(err, (args.BackOff.nextBackOff s).1)]
                        else []) ++ out'.notifies = _
                      have hfun : ((fun k => (errAt op (i + k),
                            delaySeq args.BackOff s k)) ∘ Nat.succ) =
                          (fun k => (errAt op ((i + 1) + k),
                            delaySeq args.BackOff
                              (args.BackOff.nextBackOff s).2 k)) := by
                        funext k
                        show (errAt op (i + (k + 1)),
                          delaySeq args.BackOff s (k + 1)) = _
                        rw [hshift k, delaySeq_succ]
                      by_cases hn : args.hasNotify
                      · rw [ihn, if_pos hn, if_pos hn, if_pos hn,
                          List.range_succ_eq_map, List.map_cons, List.map_map,
                          hfun, List.singleton_append]
                        congr 1
                        show (err, (args.BackOff.nextBackOff s).1) =
                          (errAt op (i + 0), delaySeq args.BackOff s 0)
                        rw [Nat.add_zero, errAt_eq op i err hop, delaySeq_zero]
                      · rw [ihn, if_neg hn, if_neg hn, if_neg hn,
                          List.nil_append]
                    · intro k hk
                      match k with
                      | 0 =>
                        rw [Nat.add_zero, errAt_eq op i err hop, hop]
                      | k + 1 =>
                        have := ihe k (by omega)
                        rw [hshift k]
                        exact this
                    · show n + 1 + i = (if out'.reason = StopReason.ctxDuringWait
                          then out'.invocations + 1 else out'.invocations)
                      by_cases hr : out'.reason = StopReason.ctxDuringWait
                      · rw [if_pos hr] at ihlen ⊢
                        omega
                      · rw [if_neg hr] at ihlen ⊢
                        omega

/-- With `MaxTries = 0` the attempt-count check can never be the reason
the loop returns: no terminating run, from any start attempt and state,
has `reason = maxTries`. -/
theorem retryLoop_no_maxTries_when_unbounded {S T : Type}
    (args : retryOptions S) (env : RetryEnv)
    (op : Nat → T × Option GoError) (h0 : args.MaxTries = 0) :
    ∀ (fuel : Nat) (s : S) (i : Nat) (out : RetryOutcome T),
      retryLoop args env op fuel s i = some out →
      out.reason = StopReason.maxTries → False := by
  intro fuel
  induction fuel with
  | zero =>
    intro s i out h
    simp [retryLoop] at h
  | succ fuel ih =>
    intro s i out h hr
    rw [retryLoop] at h
    cases hop : (op i).2 with
    | none =>
      simp only [hop] at h
      cases h
      exact StopReason.noConfusion hr
    | some err =>
      simp only [hop] at h
      by_cases hmt : 0 < args.MaxTries ∧ args.MaxTries ≤ i
      · exact absurd hmt.1 (by omega)
      · rw [if_neg hmt] at h
        by_cases hme : args.MaxElapsedTime < env.elapsed i
        · rw [if_pos hme] at h
          cases h
          exact StopReason.noConfusion hr
        · rw [if_neg hme] at h
          by_cases hperm : (asPermanent err).isSome = true
          · rw [if_pos hperm] at h
            cases h
            exact StopReason.noConfusion hr
          · rw [if_neg hperm] at h
            by_cases hstop : (args.BackOff.nextBackOff s).1 = Stop
            · rw [if_pos hstop] at h
              cases h
              exact StopReason.noConfusion hr
            · rw [if_neg hstop] at h
              cases hctx : env.ctxErr i with
              | some cerr =>
                simp only [hctx] at h
                cases h
                exact StopReason.noConfusion hr
              | none =>
                simp only [hctx] at h
                cases hwc : env.waitCancel i with
                | some cerr =>
                  simp only [hwc] at h
                  cases h
                  exact StopReason.noConfusion hr
                | none =>
                  simp only [hwc] at h
                  cases hrec : retryLoop args env op fuel
                      (args.BackOff.nextBackOff s).2 (i + 1) with
                  | none =>
                    simp only [hrec] at h
                    exact Option.noConfusion h
                  | some out' =>
                    simp only [hrec] at h
                    cases h
                    exact ih _ _ out' hrec hr

/-- Under an always-failing operation whose errors carry no signal, with
time and cancellation quiescent and a generator that never stops, the
loop started at attempt `i ≤ MaxTries` runs to attempt `MaxTries`
exactly and returns that attempt's error via the attempt-count check. -/
theorem retryLoop_reaches_maxTries {S T : Type} (args : retryOptions S)
    (env : RetryEnv) (op : Nat → T × Option GoError)
    (hfail : ∀ j, ((op j).2).isSome = true)
    (hperm : ∀ j e, (op j).2 = some e → asPermanent e = none)
    (hel : ∀ j, env.elapsed j ≤ args.MaxElapsedTime)
    (hstop : ∀ t : S, (args.BackOff.nextBackOff t).1 = Stop → False)
    (hctx : ∀ j, env.ctxErr j = none)
    (hwc : ∀ j, env.waitCancel j = none)
    (hpos : 0 < args.MaxTries) :
    ∀ (fuel : Nat) (s : S) (i : Nat),
      i ≤ args.MaxTries → args.MaxTries - i < fuel →
      ∃ out, retryLoop args env op fuel s i = some out ∧
        out.invocations = args.MaxTries ∧
        out.error = (op args.MaxTries).2 ∧
        out.reason = StopReason.maxTries := by
  intro fuel
  induction fuel with
  | zero =>
    intro s i h1 h2
    omega
  | succ fuel ih =>
    intro s i h1 h2
    obtain ⟨e, he⟩ := Option.isSome_iff_exists.mp (hfail i)
    by_cases hreach : args.MaxTries ≤ i
    · have hi : i = args.MaxTries := le_antisymm h1 hreach
      refine ⟨⟨(op i).1, some e, i, [], [], 0, .maxTries⟩, ?_, hi, ?_, rfl⟩
      · rw [retryLoop]
        simp only [he]
        rw [if_pos ⟨hpos, hreach⟩]
      · show some e = (op args.MaxTries).2
        rw [← hi]
        exact he.symm
    · obtain ⟨out, hout, hinv, herr, hreas⟩ :=
        ih (args.BackOff.nextBackOff s).2 (i + 1) (by omega) (by omega)
      refine ⟨{ out with
          notifies := (if args.hasNotify then
            [(e, (args.BackOff.nextBackOff s).1)] else []) ++ out.notifies,
          waits := (args.BackOff.nextBackOff s).1 :: out.waits },
        ?_, hinv, herr, hreas⟩
      rw [retryLoop]
      simp only [he]
      rw [if_neg (fun hc => hreach hc.2), if_neg (not_lt.mpr (hel i)),
        if_neg (by simp [hperm i e he]), if_neg (fun hc => hstop s hc)]
      simp only [hctx i, hwc i, hout]

/-- C1: the claimed `RetryAfterError` handling does not exist in `Retry`.
On an operation returning `RetryAfter(1)` once and then succeeding, the
driver waits the generator's computed delay (100 ns here, strictly less
than the 1 s carried by the error, as the last conjunct records) and
performs no `Reset` beyond the single initial one (`resets = 1`): the
error's duration is ignored and growth is not restarted. -/
theorem retry_ignores_retryAfter :
    Retry bCount [WithNotify] envQuiet opRetryAfterOnce 0 5 =
      some ⟨"ok", none, 2, [(GoError.retryAfterE 1000000000, 100)], [100], 1,
        StopReason.success⟩ ∧
    RetryAfter 1 = GoError.retryAfterE 1000000000 ∧
    (100 : Int) < Second := by
  refine ⟨rfl, by decide, by decide⟩

/-- C2, counterexample: with `MaxElapsedTime = 0` (so `≤ 0`), the
elapsed-time check does trigger — here on the very first failure, with
one nanosecond elapsed — so `Retry` does return via that check. -/
theorem maxElapsed_check_fires_at_zero :
    Retry bCount [WithMaxElapsedTime 0] envElapsedOne opAlwaysFail 0 5 =
      some ⟨(), some (GoError.plain "e1"), 1, [], [], 1,
        StopReason.maxElapsed⟩ := by
  rfl

/-- C2, amended: the code has no special case for `MaxElapsedTime ≤ 0`;
the check `time.Since(startedAt) > MaxElapsedTime` stays live, so with a
non-positive configured bound any failing attempt that observes a
positive elapsed time (and survives the earlier `MaxTries` check)
returns the operation's error via the elapsed-time check. -/
theorem maxElapsed_nonpositive_still_enforced {S T : Type}
    (args : retryOptions S) (env : RetryEnv)
    (op : Nat → T × Option GoError) (fuel : Nat) (s : S) (i : Nat)
    (e : GoError)
    (hme : args.MaxElapsedTime ≤ 0)
    (he : (op i).2 = some e)
    (htries : args.MaxTries = 0 ∨ i < args.MaxTries)
    (hel : 0 < env.elapsed i) :
    retryLoop args env op (fuel + 1) s i =
      some ⟨(op i).1, some e, i, [], [], 0, StopReason.maxElapsed⟩ := by
  rw [retryLoop]
  simp only [he]
  rw [if_neg (by omega), if_pos (by omega)]

/-- Closed instance of the amended C2 theorem: `MaxElapsedTime = 0`,
1 ns elapsed, always-failing operation, `MaxTries` unbounded. -/
theorem maxElapsed_nonpositive_still_enforced_witness :
    retryLoop (applyOptions bCount [WithMaxElapsedTime 0]) envElapsedOne
      opAlwaysFail 3 0 1 =
      some ⟨(), some (GoError.plain "e1"), 1, [], [], 0,
        StopReason.maxElapsed⟩ :=
  maxElapsed_nonpositive_still_enforced
    (applyOptions bCount [WithMaxElapsedTime 0]) envElapsedOne opAlwaysFail
    2 0 1 (GoError.plain "e1") (by decide) (by decide) (Or.inl rfl)
    (by decide)

/-- C3: on an operation always returning `Permanent(errors.New("x"))`,
`Retry` returns after exactly one invocation with no `Notify` call and
no wait — but the returned error is the operation's error itself (the
`*PermanentError` wrapper, whose `Unwrap` is `"x"`), not the wrapped
underlying error that `Retry`'s own doc comment promises. -/
theorem retry_permanent_returns_wrapper :
    Retry bCount [] envQuiet opAlwaysPermanentX 0 5 =
      some ⟨(), some (GoError.permanentE (GoError.plain "x")), 1, [], [], 1,
        StopReason.permanent⟩ ∧
    unwrapOnce (GoError.permanentE (GoError.plain "x")) =
      some (GoError.plain "x") := by
  exact ⟨rfl, rfl⟩

/-- C4: with `MaxTries = n > 0` and an always-failing operation (whose
errors carry no permanent signal, with time, generator and cancellation
quiescent), `Retry` invokes the operation exactly `n` times and returns
the `n`-th failure's error unchanged; and with `MaxTries = 0` no
terminating run ever returns via the attempt-count check. -/
theorem maxTries_cap_exact :
    (∀ (S T : Type) (args : retryOptions S) (env : RetryEnv)
        (op : Nat → T × Option GoError) (sInit : S) (fuel : Nat),
      (∀ j, ((op j).2).isSome = true) →
      (∀ j e, (op j).2 = some e → asPermanent e = none) →
      (∀ j, env.elapsed j ≤ args.MaxElapsedTime) →
      (∀ t : S, (args.BackOff.nextBackOff t).1 = Stop → False) →
      (∀ j, env.ctxErr j = none) →
      (∀ j, env.waitCancel j = none) →
      0 < args.MaxTries → args.MaxTries ≤ fuel →
      ∃ out, retryWith args env op sInit fuel = some out ∧
        out.invocations = args.MaxTries ∧
        out.error = (op args.MaxTries).2 ∧
        out.reason = StopReason.maxTries) ∧
    (∀ (S T : Type) (args : retryOptions S) (env : RetryEnv)
        (op : Nat → T × Option GoError) (fuel : Nat) (s : S) (i : Nat)
        (out : RetryOutcome T),
      args.MaxTries = 0 →
      retryLoop args env op fuel s i = some out →
      out.reason ≠ StopReason.maxTries) := by
  constructor
  · intro S T args env op sInit fuel hfail hperm hel hstop hctx hwc hpos hfuel
    obtain ⟨out, hout, hinv, herr, hreas⟩ :=
      retryLoop_reaches_maxTries args env op hfail hperm hel hstop hctx hwc
        hpos fuel (args.BackOff.reset sInit) 1 hpos (by omega)
    refine ⟨{ out with resets := out.resets + 1 }, ?_, hinv, herr, hreas⟩
    simp only [retryWith, hout]
  · intro S T args env op fuel s i out h0 h
    exact retryLoop_no_maxTries_when_unbounded args env op h0 fuel s i out h

/-- Closed instance of C4: `MaxTries = 2` over an always-failing
operation reaches exactly 2 invocations and returns the second error;
and a run that terminated via the elapsed check under `MaxTries = 0` did
not terminate via the attempt-count check. -/
theorem maxTries_cap_exact_witness :
    (∃ out, retryWith (applyOptions bCount [WithMaxTries 2]) envQuiet
        opAlwaysFail 0 5 = some out ∧
      out.invocations = 2 ∧
      out.error = some (GoError.plain "e2") ∧
      out.reason = StopReason.maxTries) ∧
    StopReason.maxElapsed ≠ StopReason.maxTries := by
  constructor
  · exact maxTries_cap_exact.1 Nat Unit (applyOptions bCount [WithMaxTries 2])
      envQuiet opAlwaysFail 0 5 (fun j => rfl)
      (fun j e h => by cases h; rfl)
      (fun j => by show (0 : Int) ≤ DefaultMaxElapsedTime; decide)
      (fun t h => by
        have h100 : (100 : Int) + t = -1 := h
        omega)
      (fun j => rfl) (fun j => rfl) (by decide) (by decide)
  · exact maxTries_cap_exact.2 Nat Unit
      (applyOptions bCount [WithMaxElapsedTime 0]) envElapsedOne opAlwaysFail
      3 0 1 ⟨(), some (GoError.plain "e1"), 1, [], [], 0,
        StopReason.maxElapsed⟩ rfl rfl

/-- C5: when a failing attempt passes the `MaxTries`, elapsed-time,
permanent-error and `Stop` checks, and cancellation is then observed —
either at the pre-wait `ctx.Err()` check or by `ctx.Done()` winning the
wait's `select` — `Retry` returns the context's cancellation error `c`
in place of the operation's error. -/
theorem cancellation_returns_context_error {S T : Type}
    (args : retryOptions S) (env : RetryEnv)
    (op : Nat → T × Option GoError) (fuel : Nat) (s : S) (i : Nat)
    (e c : GoError)
    (he : (op i).2 = some e)
    (htries : args.MaxTries = 0 ∨ i < args.MaxTries)
    (hel : env.elapsed i ≤ args.MaxElapsedTime)
    (hperm : asPermanent e = none)
    (hstop : (args.BackOff.nextBackOff s).1 = Stop → False) :
    (env.ctxErr i = some c →
      retryLoop args env op (fuel + 1) s i =
        some ⟨(op i).1, some c, i, [], [], 0, StopReason.ctxPreWait⟩) ∧
    (env.ctxErr i = none → env.waitCancel i = some c →
      retryLoop args env op (fuel + 1) s i =
        some ⟨(op i).1, some c, i,
          (if args.hasNotify then [(e, (args.BackOff.nextBackOff s).1)]
           else []),
          [(args.BackOff.nextBackOff s).1], 0,
          StopReason.ctxDuringWait⟩) := by
  constructor
  · intro hc
    rw [retryLoop]
    simp only [he]
    rw [if_neg (by omega), if_neg (not_lt.mpr hel),
      if_neg (by simp [hperm]), if_neg hstop]
    simp only [hc]
  · intro hc hw
    rw [retryLoop]
    simp only [he]
    rw [if_neg (by omega), if_neg (not_lt.mpr hel),
      if_neg (by simp [hperm]), if_neg hstop]
    simp only [hc, hw]

/-- Closed instance of C5: both cancellation flavours on a concrete
failing attempt return the context error `"ctx"`, not the operation's
`"e1"`. -/
theorem cancellation_returns_context_error_witness :
    (retryLoop (applyOptions bCount []) envCancelPre opAlwaysFail 2 0 1 =
      some ⟨(), some (GoError.plain "ctx"), 1, [], [], 0,
        StopReason.ctxPreWait⟩) ∧
    (retryLoop (applyOptions bCount []) envCancelWait opAlwaysFail 2 0 1 =
      some ⟨(), some (GoError.plain "ctx"), 1, [], [(100 : Int)], 0,
        StopReason.ctxDuringWait⟩) := by
  constructor
  · exact (cancellation_returns_context_error (applyOptions bCount [])
      envCancelPre opAlwaysFail 1 0 1 (GoError.plain "e1")
      (GoError.plain "ctx") (by decide) (Or.inl rfl) (by decide) (by decide)
      (by decide)).1 rfl
  · exact (cancellation_returns_context_error (applyOptions bCount [])
      envCancelWait opAlwaysFail 1 0 1 (GoError.plain "e1")
      (GoError.plain "ctx") (by decide) (Or.inl rfl) (by decide) (by decide)
      (by decide)).2 rfl rfl

/-- C6: every terminating `Retry` run invokes the operation at least
once; a nil-error invocation makes the loop return that invocation's
result with a nil error at once; and an operation failing twice then
succeeding is invoked exactly 3 times, returning the success value with
no error. -/
theorem invoked_at_least_once_and_success_immediate :
    (∀ (S T : Type) (args : retryOptions S) (env : RetryEnv)
        (op : Nat → T × Option GoError) (sInit : S) (fuel : Nat)
        (out : RetryOutcome T),
      retryWith args env op sInit fuel = some out →
      1 ≤ out.invocations) ∧
    (∀ (S T : Type) (args : retryOptions S) (env : RetryEnv)
        (op : Nat → T × Option GoError) (fuel : Nat) (s : S) (i : Nat),
      (op i).2 = none →
      retryLoop args env op (fuel + 1) s i =
        some ⟨(op i).1, none, i, [], [], 0, StopReason.success⟩) ∧
    Retry bCount [] envQuiet opFailTwice 0 6 =
      some ⟨"ok", none, 3, [], [100, 101], 1, StopReason.success⟩ := by
  refine ⟨?_, ?_, rfl⟩
  · intro S T args env op sInit fuel out h
    simp only [retryWith] at h
    cases hl : retryLoop args env op fuel (args.BackOff.reset sInit) 1 with
    | none =>
      simp only [hl] at h
      exact Option.noConfusion h
    | some out' =>
      simp only [hl] at h
      cases h
      exact (retryLoop_trace args env op fuel _ 1 out' hl).1
  · intro S T args env op fuel s i h
    rw [retryLoop]
    simp only [h]

/-- Closed instance of C6: the fail-twice-then-succeed run made 3
invocations (so at least one), and the succeeding third attempt returns
immediately with no error. -/
theorem invoked_at_least_once_witness :
    (1 : Nat) ≤ 3 ∧
    retryLoop (applyOptions bCount []) envQuiet opFailTwice 1 0 3 =
      some ⟨"ok", none, 3, [], [], 0, StopReason.success⟩ := by
  constructor
  · exact invoked_at_least_once_and_success_immediate.1 Nat String
      (applyOptions bCount []) envQuiet opFailTwice 0 6
      ⟨"ok", none, 3, [], [100, 101], 1, StopReason.success⟩ rfl
  · exact invoked_at_least_once_and_success_immediate.2.1 Nat String
      (applyOptions bCount []) envQuiet opFailTwice 0 0 3 rfl

/-- C7: with a `Notify` callback configured, a terminating run calls it
exactly once before each wait, with that attempt's operation error and
the delay the generator computed for that attempt; the count relation
(`n + 1 = invocations`, except `n + 1 = invocations + 1` when
cancellation struck during the final wait) shows the terminal attempt of
every other return path produced no `Notify` call. -/
theorem notify_called_before_each_wait {S T : Type}
    (args : retryOptions S) (env : RetryEnv)
    (op : Nat → T × Option GoError) (sInit : S) (fuel : Nat)
    (out : RetryOutcome T)
    (hN : args.hasNotify = true)
    (h : retryWith args env op sInit fuel = some out) :
    ∃ n,
      out.notifies = (List.range n).map (fun k =>
        (errAt op (1 + k),
         delaySeq args.BackOff (args.BackOff.reset sInit) k)) ∧
      (∀ k, k < n → (op (1 + k)).2 = some (errAt op (1 + k))) ∧
      n + 1 = (if out.reason = StopReason.ctxDuringWait
               then out.invocations + 1 else out.invocations) := by
  simp only [retryWith] at h
  cases hl : retryLoop args env op fuel (args.BackOff.reset sInit) 1 with
  | none =>
    simp only [hl] at h
    exact Option.noConfusion h
  | some out' =>
    simp only [hl] at h
    cases h
    obtain ⟨h1, h2, n, hw, hn, he, hlen⟩ :=
      retryLoop_trace args env op fuel (args.BackOff.reset sInit) 1 out' hl
    refine ⟨n, ?_, he, ?_⟩
    · show out'.notifies = _
      rw [hn, if_pos hN]
    · show n + 1 = (if out'.reason = StopReason.ctxDuringWait
          then out'.invocations + 1 else out'.invocations)
      exact hlen

/-- Closed instance of C7: the notified pairs of a concrete run are the
attempt errors paired with the generator's delays, two of them for three
invocations. -/
theorem notify_called_before_each_wait_witness :
    ∃ n,
      [(GoError.plain "t", (100 : Int)), (GoError.plain "t", 101)] =
        (List.range n).map (fun k =>
          (errAt opFailTwice (1 + k), delaySeq bCount 0 k)) ∧
      (∀ k, k < n →
        (opFailTwice (1 + k)).2 = some (errAt opFailTwice (1 + k))) ∧
      n + 1 = 3 :=
  notify_called_before_each_wait (applyOptions bCount [WithNotify]) envQuiet
    opFailTwice 0 6
    ⟨"ok", none, 3, [(GoError.plain "t", 100), (GoError.plain "t", 101)],
      [100, 101], 1, StopReason.success⟩ rfl rfl

/-- C8: `Permanent(nil)` is nil, and for every non-nil error `e`,
`Permanent(e)` is a non-nil `*PermanentError` whose `Unwrap()` is exactly
`e` and whose `Error()` string equals `e.Error()`. -/
theorem permanent_wrapping_transparent :
    Permanent none = none ∧
    ∀ e : GoError,
      Permanent (some e) = some (GoError.permanentE e) ∧
      (Permanent (some e)).isSome = true ∧
      unwrapOnce (GoError.permanentE e) = some e ∧
      errorString (GoError.permanentE e) = errorString e :=
  ⟨rfl, fun _ => ⟨rfl, rfl, rfl, rfl⟩⟩

/-- Closed instance of C8 at the error `"x"`. -/
theorem permanent_wrapping_transparent_witness :
    Permanent (some (GoError.plain "x")) =
      some (GoError.permanentE (GoError.plain "x")) :=
  (permanent_wrapping_transparent.2 (GoError.plain "x")).1

/-- C9: every terminating `Retry` run performs exactly one
`BackOff.Reset()`, and every delay it draws is the pure `NextBackOff`
iteration from the once-reset initial state — the reset precedes the
first attempt and no further reset intervenes. -/
theorem backoff_reset_exactly_once {S T : Type} (args : retryOptions S)
    (env : RetryEnv) (op : Nat → T × Option GoError) (sInit : S)
    (fuel : Nat) (out : RetryOutcome T)
    (h : retryWith args env op sInit fuel = some out) :
    out.resets = 1 ∧
    ∃ n, out.waits = (List.range n).map
      (fun k => delaySeq args.BackOff (args.BackOff.reset sInit) k) := by
  simp only [retryWith] at h
  cases hl : retryLoop args env op fuel (args.BackOff.reset sInit) 1 with
  | none =>
    simp only [hl] at h
    exact Option.noConfusion h
  | some out' =>
    simp only [hl] at h
    cases h
    obtain ⟨h1, h2, n, hw, hn, he, hlen⟩ :=
      retryLoop_trace args env op fuel (args.BackOff.reset sInit) 1 out' hl
    constructor
    · show out'.resets + 1 = 1
      omega
    · exact ⟨n, hw⟩

/-- Closed instance of C9 on a concrete three-attempt run: one reset,
and the two waits are the generator's 0th and 1st delays from the reset
state. -/
theorem backoff_reset_exactly_once_witness :
    (1 : Nat) = 1 ∧
    ∃ n, [(100 : Int), 101] =
      (List.range n).map (fun k => delaySeq bCount 0 k) :=
  backoff_reset_exactly_once (applyOptions bCount []) envQuiet opFailTwice
    0 6 ⟨"ok", none, 3, [], [100, 101], 1, StopReason.success⟩ rfl

/-- C10: a successful invocation returns `(result, nil)` even when the
cancellation context is already cancelled at that attempt — the context
is only consulted after a failed attempt, so success takes precedence
over cancellation. -/
theorem success_overrides_cancellation {S T : Type}
    (args : retryOptions S) (env : RetryEnv)
    (op : Nat → T × Option GoError) (sInit : S) (fuel : Nat) (c : GoError)
    (h1 : (op 1).2 = none) (h2 : env.ctxErr 1 = some c) :
    retryWith args env op sInit (fuel + 1) =
      some ⟨(op 1).1, none, 1, [], [], 1, StopReason.success⟩ := by
  have hl : retryLoop args env op (fuel + 1) (args.BackOff.reset sInit) 1 =
      some ⟨(op 1).1, none, 1, [], [], 0, StopReason.success⟩ := by
    rw [retryLoop]
    simp only [h1]
  simp only [retryWith, hl]

/-- Closed instance of C10: an immediately-succeeding operation under an
already-cancelled context still returns `("v", nil)`. -/
theorem success_overrides_cancellation_witness :
    retryWith (applyOptions bCount []) envCancelPre opImmediateOk 0 1 =
      some ⟨"v", none, 1, [], [], 1, StopReason.success⟩ :=
  success_overrides_cancellation (applyOptions bCount []) envCancelPre
    opImmediateOk 0 0 (GoError.plain "ctx") rfl rfl

end Backoff
